import Mathlib

/-!
Shallow embedding of the Bayesian-astronomy tutorial notebooks
(`Solutions-02.ipynb` and `03-Bayesian-Modeling-With-MCMC.ipynb`).

Modelling conventions:
* Python floats that only undergo field operations are embedded as `ℚ`;
  values produced by `log`, `exp` or `sqrt` live in `ℝ`.
* A value that the notebook represents as `-np.inf` (the log of a zero
  prior density) is embedded as `none : Option _`, a finite value `a` as
  `some a`.
* The result of the density normalisation `np.exp(log_P - np.max(log_P))`
  is embedded in the type `DVal`, which distinguishes an ordinary finite
  float (`DVal.val r`), positive infinity (`DVal.inf`) and IEEE NaN
  (`DVal.nan`), because the degenerate all-rejected grid produces
  `exp(-inf - -inf) = exp(nan) = nan` in numpy.
* The seeded generators `np.random.RandomState(rseed).rand` / `.randn`
  are modelled as explicit streams `rngU rngN : ℕ → ℚ`: the notebook's
  determinism in `rseed` corresponds to the streams being functions.
* `np.searchsorted(a, v)` (default side "left") is embedded by its
  documented semantics on a sorted input array: the least index `i` with
  `v ≤ a[i]`, and `a.length` when there is none.
* numpy fancy indexing `arr[idxs]` raises `IndexError` on an
  out-of-range index; this is embedded with `List.get?` under `mapM`,
  so the embedded `contour_levels` returns `none` exactly when the
  notebook function would raise.
-/

namespace BayesTutorial

/-! ### Priors (`Solutions-02.ipynb`, cells defining the two priors)

```python
def log_flat_prior(theta):
    if np.all(np.abs(theta) < 1000):
        return 0
    else:
        return -np.inf  # log(0)

def log_symmetric_prior(theta):
    if np.abs(theta[0]) < 1000:
        return -1.5 * np.log(1 + theta[1] ** 2)
    else:
        return -np.inf  # log(0)
```
-/

/-- `log_flat_prior` from the notebooks: `0` when every component of the
parameter vector has absolute value `< 1000`, else `-inf` (`none`). -/
def log_flat_prior (theta : List ℚ) : Option ℚ :=
  if theta.all (fun t => decide (|t| < 1000)) then some 0 else none

/-- `log_symmetric_prior` from `Solutions-02.ipynb`; the parameter vector
`theta = [intercept, slope]` is embedded as a pair, `theta.1 = theta[0]`,
`theta.2 = theta[1]`. -/
noncomputable def log_symmetric_prior (theta : ℚ × ℚ) : Option ℝ :=
  if |theta.1| < 1000 then
    some (-1.5 * Real.log (1 + (theta.2 : ℝ) ^ 2))
  else
    none

/-! ### Log-likelihood (`Solutions-02.ipynb`)

```python
def log_likelihood(theta, x, y, dy):
    y_model = theta[0] + theta[1] * x
    return -0.5 * np.sum(np.log(2 * np.pi * dy ** 2) +
                         (y - y_model) ** 2 / dy ** 2)
```
The three parallel arrays `x, y, dy` are embedded as one list of triples
`(x_i, y_i, dy_i)`; the elementwise numpy expression becomes a `map` and
`np.sum` a list sum. -/
noncomputable def log_likelihood (θ0 θ1 : ℚ) (data : List (ℚ × ℚ × ℚ)) : ℝ :=
  -0.5 * (data.map (fun d =>
      Real.log (2 * Real.pi * (d.2.2 : ℝ) ^ 2) +
        ((d.2.1 : ℝ) - ((θ0 : ℝ) + (θ1 : ℝ) * (d.1 : ℝ))) ^ 2 / (d.2.2 : ℝ) ^ 2)).sum

/-- Addition `log_likelihood(...) + log_prior(...)` as it appears in
`plot_results`: a finite log-likelihood plus a prior that may be `-inf`. -/
def addLogPrior (l : ℝ) : Option ℚ → Option ℝ
  | some p => some (l + (p : ℝ))
  | none => none

/-! ### Synthetic data generators

`Solutions-02.ipynb` / `03-Bayesian-Modeling-With-MCMC.ipynb`:
```python
def make_data(intercept, slope, N=20, dy=5, rseed=42):
    rand = np.random.RandomState(rseed)
    x = 100 * rand.rand(N)
    y = intercept + slope * x
    y += dy * rand.randn(N)
    return x, y, dy * np.ones_like(x)
```
`03-Bayesian-Modeling-With-MCMC.ipynb`:
```python
def make_data_scatter(intercept, slope, scatter,
                      N=20, dy=2, rseed=42):
    rand = np.random.RandomState(rseed)
    x = 100 * rand.rand(20)
    y = intercept + slope * x
    y += np.sqrt(dy ** 2 + scatter ** 2) * rand.randn(20)
    return x, y, dy * np.ones_like(x)
```
Note that the body of `make_data_scatter` draws `rand.rand(20)` and
`rand.randn(20)` with a hard-coded `20`, not `N`. -/

/-- `make_data`: the seeded `rand.rand` / `rand.randn` streams are the
parameters `rngU rngN`. -/
def make_data (intercept slope : ℚ) (N : ℕ) (dy : ℚ) (rngU rngN : ℕ → ℚ) :
    List ℚ × List ℚ × List ℚ :=
  let x := (List.range N).map (fun i => 100 * rngU i)
  let y0 := x.map (fun xi => intercept + slope * xi)
  let y := (y0.zip ((List.range N).map rngN)).map (fun p => p.1 + dy * p.2)
  (x, y, x.map (fun _ => dy))

/-- `make_data_scatter`; faithful to the source, including the
hard-coded draw count `20` in the body (the parameter `N` is accepted
but unused by the body). -/
noncomputable def make_data_scatter (intercept slope scatter : ℚ) (N : ℕ)
    (dy : ℚ) (rngU rngN : ℕ → ℚ) : List ℝ × List ℝ × List ℝ :=
  let x := (List.range 20).map (fun i => (100 : ℝ) * (rngU i : ℝ))
  let y0 := x.map (fun xi => (intercept : ℝ) + (slope : ℝ) * xi)
  let y := (y0.zip ((List.range 20).map (fun i => ((rngN i : ℚ) : ℝ)))).map
      (fun p => p.1 + Real.sqrt ((dy : ℝ) ^ 2 + (scatter : ℝ) ^ 2) * p.2)
  (x, y, x.map (fun _ => (dy : ℝ)))

/-! ### Density-grid normalisation (`plot_results` in `Solutions-02.ipynb`)

```python
P1 = np.exp(log_P1 - np.max(log_P1))
```
The log-posterior grid entries are `Option ℝ` (`none` = `-np.inf`, i.e.
a grid point rejected by the prior). The normalised entries live in
`DVal`, which keeps numpy's special float values distinct: `np.max` of
an all-`-inf` grid is `-inf`, `-inf - -inf` is NaN, and `np.exp(nan)`
is NaN, so the all-rejected grid silently normalises to a grid of NaNs.
-/

/-- A numpy float resulting from normalisation: an ordinary finite value,
positive infinity, or NaN. -/
inductive DVal : Type
  | val (r : ℝ)
  | inf
  | nan

/-- `max` of two floats where `none` stands for `-inf`; folding it over
a grid embeds `np.max`. -/
noncomputable def omax : Option ℝ → Option ℝ → Option ℝ
  | none, b => b
  | some a, none => some a
  | some a, some b => some (max a b)

/-- `np.max(log_P)` over the whole grid; `none` when every entry is
`-inf`. -/
noncomputable def gridMax (g : List (List (Option ℝ))) : Option ℝ :=
  g.flatten.foldl omax none

/-- One entry of `np.exp(log_P - np.max(log_P))`: subtraction and
exponentiation with numpy's extended-float rules
(`exp(-inf) = 0`, `exp(a - -inf) = +inf`, `exp(-inf - -inf) = nan`). -/
noncomputable def expShift (e m : Option ℝ) : DVal :=
  match e, m with
  | some a, some b => .val (Real.exp (a - b))
  | none, some _ => .val 0
  | some _, none => .inf
  | none, none => .nan

/-- The normalised density grid `np.exp(log_P - np.max(log_P))`. -/
noncomputable def normalizeGrid (g : List (List (Option ℝ))) : List (List DVal) :=
  g.map (fun row => row.map (fun e => expShift e (gridMax g)))

/-! ### Contour levels (`Solutions-02.ipynb`)

```python
def contour_levels(grid):
    """Compute 1, 2, 3-sigma contour levels for a gridded 2D posterior"""
    sorted_ = np.sort(grid.ravel())[::-1]
    pct = np.cumsum(sorted_) / np.sum(sorted_)
    cutoffs = np.searchsorted(pct, np.array([0.68, 0.95, 0.997]) ** 2)
    return sorted_[cutoffs]
```
-/

/-- `np.sort(arr)[::-1]`: sort ascending, then reverse. -/
def sortDesc {α : Type} [LinearOrder α] (l : List α) : List α :=
  (l.insertionSort (· ≤ ·)).reverse

/-- Helper for `cumsum`: running sums starting from accumulator `acc`. -/
def cumsumFrom {α : Type} [AddCommMonoid α] (acc : α) : List α → List α
  | [] => []
  | a :: t => (acc + a) :: cumsumFrom (acc + a) t

/-- `np.cumsum`. -/
def cumsum {α : Type} [AddCommMonoid α] (l : List α) : List α :=
  cumsumFrom 0 l

/-- `np.searchsorted(a, v)` with the default side "left", by its
documented semantics on a sorted input array: the least index `i` with
`v ≤ a[i]`, and `a.length` when there is none. -/
def searchsorted {α : Type} [LinearOrder α] (a : List α) (v : α) : ℕ :=
  a.findIdx (fun x => decide (v ≤ x))

/-- `np.array([0.68, 0.95, 0.997]) ** 2`, the three target cumulative
mass fractions. -/
def targets {α : Type} [LinearOrderedField α] : List α :=
  [(68 / 100) ^ 2, (95 / 100) ^ 2, (997 / 1000) ^ 2]

/-- `contour_levels(grid)` from `Solutions-02.ipynb`. The final numpy
fancy indexing `sorted_[cutoffs]` raises `IndexError` for an
out-of-range cutoff, embedded here as `none` via `mapM` over
`List.getElem?`. -/
def contour_levels {α : Type} [LinearOrderedField α]
    (grid : List (List α)) : Option (List α) :=
  let sorted := sortDesc grid.flatten
  let pct := (cumsum sorted).map (fun c => c / sorted.sum)
  let cutoffs := (targets : List α).map (searchsorted pct)
  cutoffs.mapM (fun i => sorted[i]?)

/-- Modelled from the spec's wording of the contour algorithm: the first
position `i` of the descending-sorted flattened grid whose cumulative
fraction — the sum of the first `i + 1` sorted values divided by the
total sum — meets or exceeds the target `t` (`s.length` when none
does). Used to state C1 as a refinement of the code's
binary-search-based computation. -/
def firstMassIndex {α : Type} [LinearOrderedField α] (s : List α) (t : α) : ℕ :=
  (List.range s.length).findIdx (fun i => decide (t ≤ (s.take (i + 1)).sum / s.sum))

/-- The `levels` arguments of the two `plt.contour` calls in
`plot_results` (`Solutions-02.ipynb`):

```python
ax[0].contour(slope_range, intercept_range, P1, contour_levels(P1), ...)
...
ax[1].contour(slope_range, intercept_range, P2, contour_levels(P1), ...)
```

Both panels are handed `contour_levels(P1)`; the second panel draws the
symmetric-prior density `P2` but its line levels also come from `P1`. -/
def plot_contour_args {α : Type} [LinearOrderedField α]
    (P1 P2 : List (List α)) : Option (List α) × Option (List α) :=
  (contour_levels P1, contour_levels P1)

lemma foldl_omax_cases (l : List (Option ℝ)) (acc : Option ℝ) :
    l.foldl omax acc = acc ∨ l.foldl omax acc ∈ l := by
  induction l generalizing acc with
  | nil => exact Or.inl rfl
  | cons x t ih =>
    rw [List.foldl_cons]
    rcases ih (omax acc x) with h | h
    · rw [h]
      cases acc with
      | none => exact Or.inr (by simp [omax])
      | some a =>
        cases x with
        | none => exact Or.inl rfl
        | some b =>
          rcases max_choice a b with hm | hm
          · exact Or.inl (by simp [omax, hm])
          · exact Or.inr (by simp [omax, hm])
    · exact Or.inr (List.mem_cons_of_mem _ h)

lemma le_foldl_omax (l : List (Option ℝ)) : ∀ (acc : Option ℝ) (a : ℝ),
    (some a = acc ∨ some a ∈ l) → ∃ b, l.foldl omax acc = some b ∧ a ≤ b := by
  induction l with
  | nil =>
    intro acc a h
    rcases h with h | h
    · exact ⟨a, h.symm, le_refl a⟩
    · simp at h
  | cons x t ih =>
    intro acc a h
    rw [List.foldl_cons]
    have step : ∀ c : ℝ, (some c = acc ∨ some c = x) →
        ∃ d, omax acc x = some d ∧ c ≤ d := by
      intro c hc
      rcases hc with hc | hc
      · rw [← hc]
        cases x with
        | none => exact ⟨c, rfl, le_refl c⟩
        | some b => exact ⟨max c b, rfl, le_max_left c b⟩
      · rw [← hc]
        cases acc with
        | none => exact ⟨c, rfl, le_refl c⟩
        | some b => exact ⟨max b c, rfl, le_max_right b c⟩
    rcases h with h | h
    · obtain ⟨d, hd, hcd⟩ := step a (Or.inl h)
      obtain ⟨b, hb, hdb⟩ := ih (omax acc x) d (Or.inl hd.symm)
      exact ⟨b, hb, le_trans hcd hdb⟩
    · rcases List.mem_cons.1 h with h | h
      · obtain ⟨d, hd, hcd⟩ := step a (Or.inr h)
        obtain ⟨b, hb, hdb⟩ := ih (omax acc x) d (Or.inl hd.symm)
        exact ⟨b, hb, le_trans hcd hdb⟩
      · exact ih (omax acc x) a (Or.inr h)

lemma gridMax_spec (g : List (List (Option ℝ))) (a : ℝ)
    (ha : some a ∈ g.flatten) :
    ∃ M, gridMax g = some M ∧ some M ∈ g.flatten ∧
      ∀ c : ℝ, some c ∈ g.flatten → c ≤ M := by
  obtain ⟨M, hM, _⟩ := le_foldl_omax g.flatten none a (Or.inr ha)
  refine ⟨M, hM, ?_, ?_⟩
  · rcases foldl_omax_cases g.flatten none with h | h
    · rw [hM] at h; exact absurd h (by simp)
    · rw [hM] at h; exact h
  · intro c hc
    obtain ⟨b, hb, hcb⟩ := le_foldl_omax g.flatten none c (Or.inr hc)
    have hb2 : some b = some M := by rw [← hb]; exact hM
    injection hb2 with hb2
    exact hb2 ▸ hcb

lemma length_cumsumFrom {α : Type} [AddCommMonoid α] (l : List α) :
    ∀ acc : α, (cumsumFrom acc l).length = l.length := by
  induction l with
  | nil => intro acc; rfl
  | cons a t ih => intro acc; simp [cumsumFrom, ih]

lemma length_cumsum {α : Type} [AddCommMonoid α] (l : List α) :
    (cumsum l).length = l.length :=
  length_cumsumFrom l 0

lemma cumsumFrom_get {α : Type} [AddCommMonoid α] (l : List α) :
    ∀ (acc : α) (i : ℕ) (h : i < (cumsumFrom acc l).length),
      (cumsumFrom acc l).get ⟨i, h⟩ = acc + (l.take (i + 1)).sum := by
  induction l with
  | nil => intro acc i h; simp [cumsumFrom] at h
  | cons a t ih =>
    intro acc i h
    cases i with
    | zero => simp [cumsumFrom]
    | succ i =>
      have h' : i < (cumsumFrom (acc + a) t).length := by
        simpa [cumsumFrom] using h
      show (cumsumFrom (acc + a) t).get ⟨i, h'⟩ = acc + ((a :: t).take (i + 2)).sum
      rw [ih (acc + a) i h']
      simp [add_assoc]

lemma cumsum_get {α : Type} [AddCommMonoid α] (l : List α) (i : ℕ)
    (h : i < (cumsum l).length) :
    (cumsum l).get ⟨i, h⟩ = (l.take (i + 1)).sum := by
  unfold cumsum at h ⊢
  rw [cumsumFrom_get l 0 i h, zero_add]

lemma findIdx_map_comp {β γ : Type} (f : β → γ) (l : List β) (q : γ → Bool) :
    (l.map f).findIdx q = l.findIdx (fun b => q (f b)) := by
  induction l with
  | nil => rfl
  | cons x t ih => simp [List.findIdx_cons, ih]

lemma findIdx_eq_range_findIdx {β : Type} (l : List β) (p : β → Bool)
    (q : ℕ → Bool) (hpq : ∀ i : Fin l.length, p (l.get i) = q i.val) :
    l.findIdx p = (List.range l.length).findIdx q := by
  induction l generalizing q with
  | nil => rfl
  | cons x t ih =>
    rw [List.findIdx_cons, List.length_cons, List.range_succ_eq_map,
      List.findIdx_cons]
    have h0 : p x = q 0 := hpq ⟨0, by simp⟩
    rw [h0]
    cases hq : q 0 with
    | true => rfl
    | false =>
      simp only [cond_false]
      rw [findIdx_map_comp]
      have hpq2 : ∀ i : Fin t.length, p (t.get i) = (fun n => q (Nat.succ n)) i.val := by
        intro i
        have h1 := hpq ⟨i.val + 1, by simpa using i.isLt⟩
        simpa using h1
      rw [ih (fun n => q (Nat.succ n)) hpq2]

lemma sortDesc_perm {α : Type} [LinearOrder α] (l : List α) :
    (sortDesc l).Perm l := by
  unfold sortDesc
  exact (List.reverse_perm _).trans (List.perm_insertionSort _ l)

lemma sortDesc_sorted {α : Type} [LinearOrder α] (l : List α) :
    (sortDesc l).Sorted (fun a b => b ≤ a) := by
  unfold sortDesc
  rw [List.Sorted, List.pairwise_reverse]
  exact List.sorted_insertionSort _ l

lemma sortDesc_antitone {α : Type} [LinearOrder α] (l : List α)
    (i j : Fin (sortDesc l).length) (hij : (i : ℕ) ≤ (j : ℕ)) :
    (sortDesc l).get j ≤ (sortDesc l).get i := by
  rcases eq_or_lt_of_le hij with h | h
  · have : i = j := Fin.ext h
    rw [this]
  · exact (sortDesc_sorted l).rel_get_of_lt h

lemma getElem?_eq_some_getD (l : List ℚ) (i : ℕ) (h : i < l.length) :
    l[i]? = some (l.getD i 0) := by
  rw [List.getD_eq_getElem?_getD]
  cases hx : l[i]? with
  | none =>
    rw [List.getElem?_eq_none_iff] at hx
    exact absurd h (not_lt.2 hx)
  | some v => rfl

lemma contour_key (grid : List (List ℚ))
    (hpos : 0 < grid.flatten.sum) :
    (∀ t : ℚ,
      searchsorted ((cumsum (sortDesc grid.flatten)).map
          (fun c => c / (sortDesc grid.flatten).sum)) t
        = firstMassIndex (sortDesc grid.flatten) t) ∧
    (∀ t : ℚ, t ≤ 1 →
      firstMassIndex (sortDesc grid.flatten) t < (sortDesc grid.flatten).length) := by
  have hperm := sortDesc_perm grid.flatten
  have hsum : (sortDesc grid.flatten).sum = grid.flatten.sum := hperm.sum_eq
  have hpos' : 0 < (sortDesc grid.flatten).sum := by rw [hsum]; exact hpos
  have hlenmap : ((cumsum (sortDesc grid.flatten)).map
      (fun c => c / (sortDesc grid.flatten).sum)).length
      = (sortDesc grid.flatten).length := by
    rw [List.length_map, length_cumsum]
  constructor
  · intro t
    unfold searchsorted firstMassIndex
    have hpq : ∀ i : Fin ((cumsum (sortDesc grid.flatten)).map
        (fun c => c / (sortDesc grid.flatten).sum)).length,
        (fun x => decide (t ≤ x)) (((cumsum (sortDesc grid.flatten)).map
          (fun c => c / (sortDesc grid.flatten).sum)).get i)
        = (fun i : ℕ => decide (t ≤ ((sortDesc grid.flatten).take (i + 1)).sum
            / (sortDesc grid.flatten).sum)) i.val := by
      intro i
      have hget : ((cumsum (sortDesc grid.flatten)).map
          (fun c => c / (sortDesc grid.flatten).sum)).get i
          = ((sortDesc grid.flatten).take (i.val + 1)).sum
            / (sortDesc grid.flatten).sum := by
        rw [List.get_map, cumsum_get]
      show decide (t ≤ ((cumsum (sortDesc grid.flatten)).map
          (fun c => c / (sortDesc grid.flatten).sum)).get i) = _
      rw [hget]
    rw [findIdx_eq_range_findIdx
        ((cumsum (sortDesc grid.flatten)).map
          (fun c => c / (sortDesc grid.flatten).sum))
        (fun x => decide (t ≤ x))
        (fun i : ℕ => decide (t ≤ ((sortDesc grid.flatten).take (i + 1)).sum
          / (sortDesc grid.flatten).sum))
        hpq, hlenmap]
  · intro t ht
    have hne : (sortDesc grid.flatten).length ≠ 0 := by
      intro h0
      have hlen0 : grid.flatten.length = 0 := by
        rw [← hperm.length_eq]; exact h0
      rw [List.length_eq_zero.1 hlen0] at hpos
      simp at hpos
    have hn : 0 < (sortDesc grid.flatten).length := Nat.pos_of_ne_zero hne
    unfold firstMassIndex
    have hexists : ∃ x ∈ List.range (sortDesc grid.flatten).length,
        decide (t ≤ ((sortDesc grid.flatten).take (x + 1)).sum
          / (sortDesc grid.flatten).sum) = true := by
      refine ⟨(sortDesc grid.flatten).length - 1, ?_, ?_⟩
      · rw [List.mem_range]
        exact Nat.sub_lt hn Nat.one_pos
      · rw [decide_eq_true_eq, Nat.sub_add_cancel hn, List.take_length,
          div_self (ne_of_gt hpos')]
        exact ht
    have hlt := List.findIdx_lt_length_of_exists hexists
    rwa [List.length_range] at hlt

lemma contour_levels_eq (grid : List (List ℚ))
    (hpos : 0 < grid.flatten.sum) :
    contour_levels grid =
      some ((targets : List ℚ).map (fun t =>
        (sortDesc grid.flatten).getD (firstMassIndex (sortDesc grid.flatten) t) 0)) := by
  obtain ⟨hidx, hbound⟩ := contour_key grid hpos
  have h1 := hidx ((68 / 100 : ℚ) ^ 2)
  have h2 := hidx ((95 / 100 : ℚ) ^ 2)
  have h3 := hidx ((997 / 1000 : ℚ) ^ 2)
  have b1 := hbound ((68 / 100 : ℚ) ^ 2) (by norm_num)
  have b2 := hbound ((95 / 100 : ℚ) ^ 2) (by norm_num)
  have b3 := hbound ((997 / 1000 : ℚ) ^ 2) (by norm_num)
  simp only [contour_levels, targets, List.map_cons, List.map_nil,
    List.mapM_cons, List.mapM_nil]
  rw [h1, h2, h3,
    getElem?_eq_some_getD _ _ b1, getElem?_eq_some_getD _ _ b2,
    getElem?_eq_some_getD _ _ b3]
  rfl

lemma firstMassIndex_mono (s : List ℚ) {t u : ℚ} (h : t ≤ u) :
    firstMassIndex s t ≤ firstMassIndex s u := by
  unfold firstMassIndex
  apply List.findIdx_le_findIdx
  intro x _ hx
  exact decide_eq_true (le_trans h (of_decide_eq_true hx))

/-- C2: when the log-posterior grid has at least one finite entry, every
entry of the normalised density grid is a finite non-negative value at
most `1`, and the maximum `1` is attained. -/
theorem normalized_grid_max_one (g : List (List (Option ℝ)))
    (h : ∃ a : ℝ, some a ∈ g.flatten) :
    (∀ d ∈ (normalizeGrid g).flatten, ∃ r : ℝ, d = DVal.val r ∧ 0 ≤ r ∧ r ≤ 1) ∧
    DVal.val 1 ∈ (normalizeGrid g).flatten := by
  obtain ⟨a, ha⟩ := h
  obtain ⟨M, hM, hMmem, hMub⟩ := gridMax_spec g a ha
  constructor
  · intro d hd
    rw [normalizeGrid] at hd
    simp only [List.mem_flatten, List.mem_map] at hd
    obtain ⟨row', ⟨row, hrow, hrow'⟩, hd⟩ := hd
    rw [← hrow'] at hd
    simp only [List.mem_map] at hd
    obtain ⟨e, he, hde⟩ := hd
    rw [hM] at hde
    cases e with
    | none =>
      exact ⟨0, hde.symm, le_refl 0, zero_le_one⟩
    | some b =>
      refine ⟨Real.exp (b - M), hde.symm, le_of_lt (Real.exp_pos _), ?_⟩
      rw [Real.exp_le_one_iff, sub_nonpos]
      exact hMub b (List.mem_flatten.2 ⟨row, hrow, he⟩)
  · obtain ⟨row, hrow, hMrow⟩ := List.mem_flatten.1 hMmem
    rw [normalizeGrid]
    simp only [List.mem_flatten, List.mem_map]
    refine ⟨row.map (fun e => expShift e (gridMax g)), ⟨row, hrow, rfl⟩, ?_⟩
    simp only [List.mem_map]
    refine ⟨some M, hMrow, ?_⟩
    rw [hM]
    show DVal.val (Real.exp (M - M)) = DVal.val 1
    rw [sub_self, Real.exp_zero]

/-- Witness for C2: the hypothesis and conclusion of
`normalized_grid_max_one` at the concrete log grid `[[some 0, none]]`. -/
theorem normalized_grid_max_one_witness :
    (∃ a : ℝ, some a ∈ ([[some 0, none]] : List (List (Option ℝ))).flatten) ∧
    ((∀ d ∈ (normalizeGrid [[some 0, none]]).flatten,
        ∃ r : ℝ, d = DVal.val r ∧ 0 ≤ r ∧ r ≤ 1) ∧
      DVal.val 1 ∈ (normalizeGrid [[some 0, none]]).flatten) :=
  ⟨⟨0, by simp⟩, normalized_grid_max_one _ ⟨0, by simp⟩⟩

/-- Counterexample for C4: on the all-rejected log grid `[[-inf]]` the
normalisation silently produces the all-NaN grid `[[nan]]`; no
degenerate-condition report exists anywhere in `plot_results`. -/
theorem all_rejected_grid_nan : normalizeGrid [[none]] = [[DVal.nan]] := rfl

/-- C4 amended: when every grid point's log-posterior is `-inf`, the
normalisation in `plot_results` performs no check and silently maps
every entry to NaN (`np.max` is `-inf`, and `exp(-inf - -inf) = nan`);
no diagnostic is reported to the caller. -/
theorem all_rejected_grid_all_nan (g : List (List (Option ℝ)))
    (h : ∀ e ∈ g.flatten, e = none) :
    ∀ d ∈ (normalizeGrid g).flatten, d = DVal.nan := by
  have hmax : gridMax g = none := by
    rcases foldl_omax_cases g.flatten none with hc | hc
    · exact hc
    · exact h _ hc
  intro d hd
  rw [normalizeGrid] at hd
  simp only [List.mem_flatten, List.mem_map] at hd
  obtain ⟨row', ⟨row, hrow, hrow'⟩, hd⟩ := hd
  rw [← hrow'] at hd
  simp only [List.mem_map] at hd
  obtain ⟨e, he, hde⟩ := hd
  have he2 : e = none := h e (List.mem_flatten.2 ⟨row, hrow, he⟩)
  rw [he2, hmax] at hde
  exact hde.symm

/-- Witness for C4's amended statement: the hypothesis and conclusion of
`all_rejected_grid_all_nan` at the concrete log grid `[[none, none]]`. -/
theorem all_rejected_grid_all_nan_witness :
    (∀ e ∈ ([[none, none]] : List (List (Option ℝ))).flatten, e = none) ∧
    (∀ d ∈ (normalizeGrid [[none, none]]).flatten, d = DVal.nan) :=
  ⟨by simp, all_rejected_grid_all_nan _ (by simp)⟩

end BayesTutorial

namespace BayesTutorial

/-- C6: `log_flat_prior` returns `0` exactly when every component of
`theta` has absolute value strictly below `1000`, `-inf` (embedded as
`none`) otherwise, never raising; in particular it returns `0` on
`[999, 5]` and `-inf` on `[1001, 5]`. -/
theorem flat_prior_spec :
    (∀ theta : List ℚ,
      log_flat_prior theta =
        if ∀ t ∈ theta, |t| < 1000 then some 0 else none) ∧
    log_flat_prior [999, 5] = some 0 ∧
    log_flat_prior [1001, 5] = none := by
  refine ⟨fun theta => ?_, by decide, by decide⟩
  unfold log_flat_prior
  by_cases h : ∀ t ∈ theta, |t| < 1000
  · rw [if_pos h, if_pos]
    rw [List.all_eq_true]
    intro t ht
    exact decide_eq_true (h t ht)
  · rw [if_neg h, if_neg]
    rw [List.all_eq_true]
    intro hall
    exact h (fun t ht => of_decide_eq_true (hall t ht))

/-- C7: `log_symmetric_prior [b, m]` equals `-1.5 * log (1 + m²)` when
`|b| < 1000` and `-inf` (embedded as `none`) otherwise; in particular it
returns `0` at `(0, 0)` and `-1.5 * log 2` at `(0, 1)`. -/
theorem symmetric_prior_spec :
    (∀ theta : ℚ × ℚ,
      log_symmetric_prior theta =
        if |theta.1| < 1000 then
          some (-1.5 * Real.log (1 + (theta.2 : ℝ) ^ 2))
        else none) ∧
    log_symmetric_prior (0, 0) = some 0 ∧
    log_symmetric_prior (0, 1) = some (-1.5 * Real.log 2) := by
  refine ⟨fun theta => rfl, ?_, ?_⟩
  · unfold log_symmetric_prior
    norm_num
  · unfold log_symmetric_prior
    norm_num

/-- C8: with strictly positive uncertainties, `log_likelihood` is the sum
over observations of `-0.5 * (log (2π σᵢ²) + (yᵢ - (θ0 + θ1 xᵢ))² / σᵢ²)`;
on an empty observation set it is `0`, so the grid entry
`log_likelihood + log_prior` reduces to the prior alone. -/
theorem log_likelihood_spec (θ0 θ1 : ℚ) (data : List (ℚ × ℚ × ℚ))
    (h : ∀ d ∈ data, 0 < d.2.2) :
    log_likelihood θ0 θ1 data =
      (data.map (fun d =>
        -0.5 * (Real.log (2 * Real.pi * (d.2.2 : ℝ) ^ 2) +
          ((d.2.1 : ℝ) - ((θ0 : ℝ) + (θ1 : ℝ) * (d.1 : ℝ))) ^ 2 /
            (d.2.2 : ℝ) ^ 2))).sum ∧
    log_likelihood θ0 θ1 [] = 0 ∧
    addLogPrior (log_likelihood θ0 θ1 []) (log_flat_prior [θ0, θ1]) =
      (log_flat_prior [θ0, θ1]).map (fun q => (q : ℝ)) := by
  have hempty : log_likelihood θ0 θ1 [] = 0 := by
    simp [log_likelihood]
  refine ⟨?_, hempty, ?_⟩
  · unfold log_likelihood
    rw [List.sum_map_mul_left]
  · rw [hempty]
    cases hp : log_flat_prior [θ0, θ1] <;> simp [addLogPrior]

/-- Witness for C8: the hypothesis and conclusion of
`log_likelihood_spec` at the concrete observation set `[(1, 2, 3)]` with
`θ0 = 0`, `θ1 = 1`. -/
theorem log_likelihood_spec_witness :
    (∀ d ∈ [((1 : ℚ), (2 : ℚ), (3 : ℚ))], 0 < d.2.2) ∧
    (log_likelihood 0 1 [(1, 2, 3)] =
      ([((1 : ℚ), (2 : ℚ), (3 : ℚ))].map (fun d =>
        -0.5 * (Real.log (2 * Real.pi * (d.2.2 : ℝ) ^ 2) +
          ((d.2.1 : ℝ) - (((0 : ℚ) : ℝ) + ((1 : ℚ) : ℝ) * (d.1 : ℝ))) ^ 2 /
            (d.2.2 : ℝ) ^ 2))).sum ∧
    log_likelihood 0 1 [] = 0 ∧
    addLogPrior (log_likelihood 0 1 []) (log_flat_prior [0, 1]) =
      (log_flat_prior [0, 1]).map (fun q => (q : ℝ))) :=
  ⟨by decide, log_likelihood_spec 0 1 [(1, 2, 3)] (by decide)⟩

/-- Counterexample for C5: evaluating `log_likelihood` on an observation
with `σ = -5 ≤ 0` raises nothing and silently returns the same finite
value as `σ = 5`, namely `-0.5 * (log (2π·25) + 4/25)`. -/
theorem sigma_nonpositive_silent :
    log_likelihood 0 0 [(1, 2, -5)] = log_likelihood 0 0 [(1, 2, 5)] ∧
    log_likelihood 0 0 [(1, 2, -5)] =
      -0.5 * (Real.log (2 * Real.pi * 25) + 4 / 25) := by
  constructor <;> · norm_num [log_likelihood]

/-- C5 amended: `log_likelihood` surfaces no domain error for
non-positive uncertainties; `σ` enters only through `σ²`, so negating
every `σᵢ` leaves the value unchanged. -/
theorem log_likelihood_sigma_sign_invariant (θ0 θ1 : ℚ)
    (data : List (ℚ × ℚ × ℚ)) :
    log_likelihood θ0 θ1 (data.map (fun d => (d.1, d.2.1, -d.2.2))) =
      log_likelihood θ0 θ1 data := by
  unfold log_likelihood
  rw [List.map_map]
  congr 1
  congr 1
  apply List.map_congr_left
  intro d _
  simp only [Function.comp_apply]
  push_cast
  simp [neg_sq]

/-- C3 evaluation: `make_data` returns three sequences of length exactly
`N`, but `make_data_scatter` returns sequences of length `20` for every
`N` (the body hard-codes `20`), in particular at `N = 3`. -/
theorem data_generator_lengths :
    (∀ (intercept slope dy : ℚ) (N : ℕ) (rngU rngN : ℕ → ℚ),
      (make_data intercept slope N dy rngU rngN).1.length = N ∧
      (make_data intercept slope N dy rngU rngN).2.1.length = N ∧
      (make_data intercept slope N dy rngU rngN).2.2.length = N) ∧
    (∀ rngU rngN : ℕ → ℚ,
      (make_data_scatter 25 (1 / 2) 3 3 2 rngU rngN).1.length = 20 ∧
      (make_data_scatter 25 (1 / 2) 3 3 2 rngU rngN).2.1.length = 20 ∧
      (make_data_scatter 25 (1 / 2) 3 3 2 rngU rngN).2.2.length = 20) := by
  constructor
  · intro intercept slope dy N rngU rngN
    refine ⟨?_, ?_, ?_⟩ <;>
      simp [make_data, List.length_zip, List.length_map, List.length_range]
  · intro rngU rngN
    refine ⟨?_, ?_, ?_⟩ <;>
      simp [make_data_scatter, List.length_zip, List.length_map,
        List.length_range]

/-- C1: on a density grid (non-negative entries, positive total mass)
`contour_levels` returns exactly the spec's algorithm: flatten, sort
descending, form cumulative sums over the total sum, and for each target
mass fraction `0.68²`, `0.95²`, `0.997²` report the density value at the
first sorted position whose cumulative fraction meets or exceeds the
target. (Non-negativity also guarantees the cumulative-fraction array is
sorted, the documented precondition of `np.searchsorted`.) -/
theorem contour_levels_algorithm (grid : List (List ℚ))
    (hnn : ∀ v ∈ grid.flatten, 0 ≤ v) (hpos : 0 < grid.flatten.sum) :
    contour_levels grid =
      some ((targets : List ℚ).map (fun t =>
        (sortDesc grid.flatten).getD
          (firstMassIndex (sortDesc grid.flatten) t) 0)) :=
  contour_levels_eq grid hpos

/-- Witness for C1: hypotheses and conclusion of
`contour_levels_algorithm` at the concrete grid `[[1, 2], [3, 4]]`,
where the computed levels are `[3, 1, 1]`. -/
theorem contour_levels_algorithm_witness :
    ((∀ v ∈ ([[1, 2], [3, 4]] : List (List ℚ)).flatten, 0 ≤ v) ∧
      0 < ([[1, 2], [3, 4]] : List (List ℚ)).flatten.sum) ∧
    contour_levels ([[1, 2], [3, 4]] : List (List ℚ)) =
      some ((targets : List ℚ).map (fun t =>
        (sortDesc ([[1, 2], [3, 4]] : List (List ℚ)).flatten).getD
          (firstMassIndex
            (sortDesc ([[1, 2], [3, 4]] : List (List ℚ)).flatten) t) 0)) ∧
    contour_levels ([[1, 2], [3, 4]] : List (List ℚ)) = some [3, 1, 1] :=
  ⟨⟨by norm_num, by norm_num⟩,
    contour_levels_algorithm [[1, 2], [3, 4]] (by norm_num) (by norm_num),
    by norm_num [contour_levels, sortDesc, cumsum, cumsumFrom, searchsorted,
      targets, List.insertionSort, List.orderedInsert, List.findIdx,
      List.findIdx.go, List.mapM, List.mapM.loop]⟩

/-- C9: on a density grid (non-negative entries, positive total mass)
the three thresholds returned by `contour_levels` are monotonically
non-increasing: 1-sigma ≥ 2-sigma ≥ 3-sigma. -/
theorem contour_levels_monotone (grid : List (List ℚ))
    (hnn : ∀ v ∈ grid.flatten, 0 ≤ v) (hpos : 0 < grid.flatten.sum) :
    ∃ a b c : ℚ, contour_levels grid = some [a, b, c] ∧ b ≤ a ∧ c ≤ b := by
  have heq := contour_levels_eq grid hpos
  have hbound := (contour_key grid hpos).2
  have b1 := hbound ((68 / 100 : ℚ) ^ 2) (by norm_num)
  have b2 := hbound ((95 / 100 : ℚ) ^ 2) (by norm_num)
  have b3 := hbound ((997 / 1000 : ℚ) ^ 2) (by norm_num)
  have m12 : firstMassIndex (sortDesc grid.flatten) ((68 / 100 : ℚ) ^ 2) ≤
      firstMassIndex (sortDesc grid.flatten) ((95 / 100 : ℚ) ^ 2) :=
    firstMassIndex_mono _ (by norm_num)
  have m23 : firstMassIndex (sortDesc grid.flatten) ((95 / 100 : ℚ) ^ 2) ≤
      firstMassIndex (sortDesc grid.flatten) ((997 / 1000 : ℚ) ^ 2) :=
    firstMassIndex_mono _ (by norm_num)
  refine ⟨(sortDesc grid.flatten).getD
      (firstMassIndex (sortDesc grid.flatten) ((68 / 100 : ℚ) ^ 2)) 0,
    (sortDesc grid.flatten).getD
      (firstMassIndex (sortDesc grid.flatten) ((95 / 100 : ℚ) ^ 2)) 0,
    (sortDesc grid.flatten).getD
      (firstMassIndex (sortDesc grid.flatten) ((997 / 1000 : ℚ) ^ 2)) 0,
    ?_, ?_, ?_⟩
  · rw [heq]; rfl
  · rw [List.getD_eq_get _ _ b1, List.getD_eq_get _ _ b2]
    exact sortDesc_antitone _ ⟨_, b1⟩ ⟨_, b2⟩ m12
  · rw [List.getD_eq_get _ _ b2, List.getD_eq_get _ _ b3]
    exact sortDesc_antitone _ ⟨_, b2⟩ ⟨_, b3⟩ m23

/-- Witness for C9: hypotheses and conclusion of
`contour_levels_monotone` at the concrete grid `[[1, 2], [3, 4]]`. -/
theorem contour_levels_monotone_witness :
    ((∀ v ∈ ([[1, 2], [3, 4]] : List (List ℚ)).flatten, 0 ≤ v) ∧
      0 < ([[1, 2], [3, 4]] : List (List ℚ)).flatten.sum) ∧
    (∃ a b c : ℚ, contour_levels ([[1, 2], [3, 4]] : List (List ℚ)) =
      some [a, b, c] ∧ b ≤ a ∧ c ≤ b) :=
  ⟨⟨by norm_num, by norm_num⟩,
    contour_levels_monotone [[1, 2], [3, 4]] (by norm_num) (by norm_num)⟩

/-- C10: both `plt.contour` calls of `plot_results` receive
`contour_levels(P1)` as their `levels` argument: the black contour lines
of both panels come from the flat-prior density grid `P1`, the
symmetric-prior panel's levels do not depend on `P2`, and
`contour_levels(P2)` is never computed (witnessed concretely by a pair
of grids whose own contour levels differ while the second panel still
still receives the levels of `P1`). -/
theorem plot_contours_both_from_P1 :
    (∀ P1 P2 Q2 : List (List ℝ),
      plot_contour_args P1 P2 = (contour_levels P1, contour_levels P1) ∧
      plot_contour_args P1 P2 = plot_contour_args P1 Q2) ∧
    ((plot_contour_args ([[1]] : List (List ℚ)) [[2]]).2 =
        contour_levels ([[1]] : List (List ℚ)) ∧
      contour_levels ([[2]] : List (List ℚ)) ≠
        contour_levels ([[1]] : List (List ℚ))) := by
  refine ⟨fun P1 P2 Q2 => ⟨rfl, rfl⟩, rfl, ?_⟩
  norm_num [contour_levels, sortDesc, cumsum, cumsumFrom, searchsorted,
    targets, List.insertionSort, List.orderedInsert, List.findIdx,
    List.findIdx.go, List.mapM, List.mapM.loop]

end BayesTutorial
